import Mathlib

/-!
Verification of the `PlutoField` prime-field element type (`src/field.rs`,
modulus `p = 101`) against its specification.  The Rust code is shallowly
embedded: `u32` values are `Nat` with explicit `% 2^32` where machine
wraparound can occur, `debug_assert!`-guarded constructors and fallible
operations return `Option`, and the `while` loop of `try_inverse` becomes a
fuel-indexed recursion (the fuel is the initial `power`, which strictly
decreases each iteration, so it always suffices).
-/

/-- Rust: `const PLUTO_FIELD_PRIME: u32 = 101;`. -/
def PLUTO_FIELD_PRIME : Nat := 101

/-- Modulus of `u32` machine arithmetic (`2^32`); wrapping ops reduce mod this. -/
def U32_MOD : Nat := 2 ^ 32

/-- Rust: `pub struct PlutoField { value: u32 }`. -/
structure PlutoField where
  value : Nat
deriving DecidableEq, Repr

/-- Rust: `pub const ORDER_U32: u32 = PLUTO_FIELD_PRIME;`. -/
def PlutoField.ORDER_U32 : Nat := PLUTO_FIELD_PRIME

/-- Rust: `pub fn new(value: u32) -> Self { Self { value } }` — stores verbatim. -/
def PlutoField.new (value : Nat) : PlutoField := ⟨value⟩

/-- Rust: `fn zero() -> Self { Self::new(0) }`. -/
def PlutoField.zero : PlutoField := PlutoField.new 0

/-- Rust: `fn one() -> Self { Self::new(1) }`. -/
def PlutoField.one : PlutoField := PlutoField.new 1

/-- Rust: `fn is_zero(&self) -> bool { self.value == 0 || self.value == Self::ORDER_U32 }`. -/
def PlutoField.is_zero (a : PlutoField) : Bool :=
  a.value == 0 || a.value == PlutoField.ORDER_U32

/-- The `while power > 0` loop of `try_inverse`: each iteration multiplies
`result` by `base` mod p when the low bit of `power` is set, squares `base`
mod p, and halves `power`.  The `u32` products wrap at `2^32` before the
`% PLUTO_FIELD_PRIME` reduction (release-build semantics).  The first argument
is fuel bounding the number of iterations; since `power` strictly decreases,
fuel equal to the initial `power` always suffices. -/
def invLoop : Nat → Nat → Nat → Nat → Nat
  | 0, _, result, _ => result
  | fuel + 1, power, result, base =>
    if power = 0 then result
    else
      invLoop fuel (power / 2)
        (if power % 2 = 1 then result * base % U32_MOD % PLUTO_FIELD_PRIME else result)
        (base * base % U32_MOD % PLUTO_FIELD_PRIME)

/-- Rust: `fn try_inverse(&self) -> Option<Self>` — `None` when `is_zero`,
otherwise exponentiation by squaring with exponent `PLUTO_FIELD_PRIME - 2`,
`result` starting at `1` and `base` at `self.value`. -/
def PlutoField.try_inverse (a : PlutoField) : Option PlutoField :=
  if a.is_zero then none
  else
    some ⟨invLoop (PLUTO_FIELD_PRIME - 2) (PLUTO_FIELD_PRIME - 2) 1 a.value⟩

/-- Rust: `fn mul(self, rhs: Self) -> Self { Self { value: (self.value * rhs.value) % 101 } }`;
the `u32` product wraps at `2^32` before the `% 101`. -/
def PlutoField.mul (a b : PlutoField) : PlutoField :=
  ⟨a.value * b.value % U32_MOD % 101⟩

/-- Rust: `fn div(self, rhs: Self) -> Self { self * rhs.inverse() }`.  `inverse`
is the p3_field default `self.try_inverse().expect(..)`, which aborts on a zero
divisor; the abort is modelled as `none`. -/
def PlutoField.div (a b : PlutoField) : Option PlutoField :=
  (b.try_inverse).map fun i => a.mul i

/-- Modelled from the spec: `halve` delegates to `halve_u32::<PLUTO_FIELD_PRIME>`
from the external `p3_field` crate, whose body is not in this repository.  The
spec says: if `a.value` is even return `a.value / 2`, otherwise return
`(a.value + p) / 2`. -/
def PlutoField.halve (a : PlutoField) : PlutoField :=
  PlutoField.new
    (if a.value % 2 = 0 then a.value / 2 else (a.value + PLUTO_FIELD_PRIME) / 2)

/-- Rust: `fn neg(self) -> Self { Self::new(Self::ORDER_U32 - self.value) }` —
`u32` wrapping subtraction, written as addition of `2^32` then reduction.
For `value <= 101` this is plain `101 - value`; note there is no special case
for zero. -/
def PlutoField.neg (a : PlutoField) : PlutoField :=
  PlutoField.new ((PlutoField.ORDER_U32 + U32_MOD - a.value) % U32_MOD)

/-- Rust `fn add`: `sum = self.value + rhs.value` (wrapping at `2^32`), then
`overflowing_sub(PLUTO_FIELD_PRIME)`: `corr_sum` is the wrapping difference and
`over` holds iff the subtraction underflowed (`sum < p`); the result keeps
`sum` when `over`, else `corr_sum`. -/
def PlutoField.add (a b : PlutoField) : PlutoField :=
  let sum := (a.value + b.value) % U32_MOD
  let corr_sum := (sum + U32_MOD - PLUTO_FIELD_PRIME) % U32_MOD
  ⟨if sum < PLUTO_FIELD_PRIME then sum else corr_sum⟩

/-- Rust `fn sub`: `overflowing_sub` gives the wrapping difference `diff` and
`over` iff `self.value < rhs.value`; `corr` is `p` when `over` else `0`, and
the result is `diff.wrapping_add(corr)`. -/
def PlutoField.sub (a b : PlutoField) : PlutoField :=
  let diff := (a.value + U32_MOD - b.value) % U32_MOD
  let corr := if a.value < b.value then PLUTO_FIELD_PRIME else 0
  PlutoField.new ((diff + corr) % U32_MOD)

/-- Rust: `fn from_canonical_u8(n: u8) -> Self { Self::new(u32::from(n)) }` —
no `debug_assert!`, so the constructor is total (argument a `u8` value). -/
def PlutoField.from_canonical_u8 (n : Nat) : Option PlutoField :=
  some (PlutoField.new n)

/-- Rust: `fn from_canonical_u16(n: u16) -> Self { Self::new(u32::from(n)) }` —
no `debug_assert!`. -/
def PlutoField.from_canonical_u16 (n : Nat) : Option PlutoField :=
  some (PlutoField.new n)

/-- Rust: `fn from_canonical_u32(n: u32) -> Self { Self::new(n) }` —
no `debug_assert!`. -/
def PlutoField.from_canonical_u32 (n : Nat) : Option PlutoField :=
  some (PlutoField.new n)

/-- Rust: `fn from_canonical_u64(n: u64)` — `debug_assert!(n < PLUTO_FIELD_PRIME)`
then `Self::from_canonical_u32(n as u32)`; the failed assertion is `none`. -/
def PlutoField.from_canonical_u64 (n : Nat) : Option PlutoField :=
  if n < PLUTO_FIELD_PRIME then PlutoField.from_canonical_u32 n else none

/-- Rust: `fn from_canonical_usize(n: usize)` — `debug_assert!(n < PLUTO_FIELD_PRIME)`
then `Self::from_canonical_u32(n as u32)`; the failed assertion is `none`. -/
def PlutoField.from_canonical_usize (n : Nat) : Option PlutoField :=
  if n < PLUTO_FIELD_PRIME then PlutoField.from_canonical_u32 n else none

/-- Mirror of `invLoop` that returns `none` as soon as an intermediate `u32`
product (`result * base` when the low bit is set, or `base * base`) reaches
`2^32`, i.e. would overflow; otherwise it returns the same value as `invLoop`. -/
def invLoopChecked : Nat → Nat → Nat → Nat → Option Nat
  | 0, _, result, _ => some result
  | fuel + 1, power, result, base =>
    if power = 0 then some result
    else if power % 2 = 1 ∧ U32_MOD ≤ result * base then none
    else if U32_MOD ≤ base * base then none
    else
      invLoopChecked fuel (power / 2)
        (if power % 2 = 1 then result * base % PLUTO_FIELD_PRIME else result)
        (base * base % PLUTO_FIELD_PRIME)

/-! ### Helper lemmas -/

/-- The inversion loop keeps `result` below `p` whenever it starts below `p`. -/
theorem invLoop_lt_prime :
    ∀ fuel power result base, result < PLUTO_FIELD_PRIME →
      invLoop fuel power result base < PLUTO_FIELD_PRIME := by
  intro fuel
  induction fuel with
  | zero =>
    intro power result base h
    simpa [invLoop] using h
  | succ n ih =>
    intro power result base h
    rw [invLoop]
    split
    · exact h
    · apply ih
      split
      · exact Nat.mod_lt _ (by decide)
      · exact h

/-- The `mul` result is reduced mod `101` and hence always canonical. -/
theorem mul_value_lt_prime (a b : PlutoField) :
    (a.mul b).value < PLUTO_FIELD_PRIME :=
  Nat.mod_lt _ (by decide)

/-- A canonical nonzero element is not detected as zero by `is_zero`. -/
theorem is_zero_false_of_canonical_ne (a : PlutoField)
    (h0 : 0 < a.value) (hp : a.value < PLUTO_FIELD_PRIME) : a.is_zero = false := by
  simp only [PlutoField.is_zero, PlutoField.ORDER_U32, Bool.or_eq_false_iff, beq_eq_false_iff_ne,
    ne_eq]
  omega

/-- Any `some` result of `try_inverse` has a canonical value. -/
theorem try_inverse_some_canonical (a r : PlutoField)
    (h : a.try_inverse = some r) : r.value < PLUTO_FIELD_PRIME := by
  unfold PlutoField.try_inverse at h
  split at h
  · exact absurd h (by simp)
  · cases h
    exact invLoop_lt_prime _ _ _ _ (by decide)

/-! ### C1 -/

/-- C1 counterexample: `neg` applied to the canonical zero element yields value
`101`, which is not canonical (`0 <= value < 101` fails), refuting the claim
that every public operation on canonical inputs returns a canonical value
"in particular for neg applied to the zero element". -/
theorem neg_zero_breaks_canonical_invariant :
    ¬ ((PlutoField.new 0).neg.value < PLUTO_FIELD_PRIME) := by decide

/-- C1 (amended): add, sub, mul on canonical inputs, halve on a canonical
input, any `some` result of try_inverse or div, and neg on a canonical
*nonzero* input all produce a canonical value (`< 101`); the one exception is
`neg` of the zero element, whose result has value `101`. -/
theorem arith_ops_preserve_canonical :
    (∀ a b : PlutoField, a.value < PLUTO_FIELD_PRIME → b.value < PLUTO_FIELD_PRIME →
      (a.add b).value < PLUTO_FIELD_PRIME ∧ (a.sub b).value < PLUTO_FIELD_PRIME ∧
      (a.mul b).value < PLUTO_FIELD_PRIME) ∧
    (∀ a : PlutoField, a.value < PLUTO_FIELD_PRIME → a.halve.value < PLUTO_FIELD_PRIME) ∧
    (∀ a r : PlutoField, a.try_inverse = some r → r.value < PLUTO_FIELD_PRIME) ∧
    (∀ a b r : PlutoField, a.div b = some r → r.value < PLUTO_FIELD_PRIME) ∧
    (∀ a : PlutoField, 0 < a.value → a.value < PLUTO_FIELD_PRIME →
      a.neg.value < PLUTO_FIELD_PRIME) ∧
    (PlutoField.new 0).neg.value = PLUTO_FIELD_PRIME := by
  refine ⟨?_, ?_, ?_, ?_, ?_, by decide⟩
  · intro a b h1 h2
    refine ⟨?_, ?_, mul_value_lt_prime a b⟩
    · simp only [PlutoField.add, PLUTO_FIELD_PRIME, U32_MOD] at *
      split_ifs <;> omega
    · simp only [PlutoField.sub, PlutoField.new, PLUTO_FIELD_PRIME, U32_MOD] at *
      split_ifs <;> omega
  · intro a h
    simp only [PlutoField.halve, PlutoField.new, PLUTO_FIELD_PRIME] at *
    split_ifs <;> omega
  · exact try_inverse_some_canonical
  · intro a b r h
    simp only [PlutoField.div, Option.map_eq_some'] at h
    obtain ⟨i, _, hr⟩ := h
    exact hr ▸ mul_value_lt_prime a i
  · intro a h0 hp
    simp only [PlutoField.neg, PlutoField.new, PlutoField.ORDER_U32,
      PLUTO_FIELD_PRIME, U32_MOD] at *
    omega

/-- C1 witness: the amended theorem applied at concrete canonical inputs. -/
theorem arith_ops_preserve_canonical_witness :
    ((PlutoField.new 100).add (PlutoField.new 20)).value < PLUTO_FIELD_PRIME :=
  (arith_ops_preserve_canonical.1 (PlutoField.new 100) (PlutoField.new 20)
    (by decide) (by decide)).1

/-! ### C2 -/

/-- C2 counterexample: `neg` of the element with value `0` is the element with
value `101`, not the canonical zero element. -/
theorem neg_zero_not_canonical_zero :
    (PlutoField.new 0).neg ≠ PlutoField.new 0 ∧
    (PlutoField.new 0).neg = PlutoField.new 101 := by decide

/-- C2 (amended): for every canonical element a, including zero, `neg(a)` has
value `101 - a.value`; in particular `neg(0)` has value `101` (recognized as
zero only through `is_zero`), not the canonical value `0`. -/
theorem neg_value_formula :
    (∀ a : PlutoField, a.value < PLUTO_FIELD_PRIME →
      a.neg = PlutoField.new (PLUTO_FIELD_PRIME - a.value)) ∧
    (PlutoField.new 0).neg = PlutoField.new PLUTO_FIELD_PRIME ∧
    ((PlutoField.new 0).neg).is_zero = true := by
  refine ⟨?_, by decide, by decide⟩
  intro a h
  simp only [PlutoField.neg, PlutoField.new, PlutoField.ORDER_U32, PlutoField.mk.injEq,
    PLUTO_FIELD_PRIME, U32_MOD] at *
  omega

/-- C2 witness: the amended formula applied at the concrete input `10`. -/
theorem neg_value_formula_witness :
    (PlutoField.new 10).neg = PlutoField.new (PLUTO_FIELD_PRIME - 10) :=
  neg_value_formula.1 (PlutoField.new 10) (by decide)

/-! ### C3 -/

/-- C3: `try_inverse` returns `none` exactly on the dual zero test
(`value = 0` or `value = 101`) and `some` otherwise, and `div` (which goes
through the aborting `inverse`, modelled as `none`) has no result exactly when
the divisor is zero by that test. -/
theorem try_inverse_none_iff_zero :
    (∀ a : PlutoField,
      (a.try_inverse = none ↔ a.value = 0 ∨ a.value = PLUTO_FIELD_PRIME) ∧
      ((a.try_inverse).isSome = true ↔ ¬(a.value = 0 ∨ a.value = PLUTO_FIELD_PRIME))) ∧
    (∀ a b : PlutoField,
      a.div b = none ↔ b.value = 0 ∨ b.value = PLUTO_FIELD_PRIME) := by
  have key : ∀ a : PlutoField,
      a.try_inverse = none ↔ a.value = 0 ∨ a.value = PLUTO_FIELD_PRIME := by
    intro a
    unfold PlutoField.try_inverse
    split
    · rename_i h
      simp only [PlutoField.is_zero, PlutoField.ORDER_U32, Bool.or_eq_true, beq_iff_eq] at h
      simpa using h
    · rename_i h
      simp only [PlutoField.is_zero, PlutoField.ORDER_U32, Bool.or_eq_true, beq_iff_eq] at h
      push_neg at h
      simp only [reduceCtorEq, false_iff]
      omega
  refine ⟨fun a => ⟨key a, ?_⟩, fun a b => ?_⟩
  · rw [← key a]
    cases h : a.try_inverse <;> simp
  · rw [← key b]
    unfold PlutoField.div
    cases h : b.try_inverse <;> simp

/-! ### C4 -/

/-- Exhaustive check over the 100 canonical nonzero residues: the inversion
loop computes `v ^ 99 % 101`, multiplying back gives the identity, and
inverting twice returns to `v`. -/
theorem try_inverse_fermat_fin :
    ∀ v : Fin 101, 0 < v.val →
      PlutoField.try_inverse ⟨v.val⟩ = some ⟨v.val ^ 99 % 101⟩ ∧
      PlutoField.mul ⟨v.val⟩ ⟨v.val ^ 99 % 101⟩ = PlutoField.one ∧
      PlutoField.try_inverse ⟨v.val ^ 99 % 101⟩ = some ⟨v.val⟩ := by decide

/-- C4: for every canonical nonzero element a, `try_inverse` returns the
element with value `a.value ^ (101 - 2) % 101`; multiplying a by that result
gives the multiplicative identity, and inverting the result returns a
(double inversion). -/
theorem try_inverse_fermat :
    ∀ a : PlutoField, 0 < a.value → a.value < PLUTO_FIELD_PRIME →
      a.try_inverse
        = some (PlutoField.new (a.value ^ (PLUTO_FIELD_PRIME - 2) % PLUTO_FIELD_PRIME)) ∧
      a.mul (PlutoField.new (a.value ^ (PLUTO_FIELD_PRIME - 2) % PLUTO_FIELD_PRIME))
        = PlutoField.one ∧
      (PlutoField.new (a.value ^ (PLUTO_FIELD_PRIME - 2) % PLUTO_FIELD_PRIME)).try_inverse
        = some a := by
  intro a h0 hp
  have hlt : a.value < 101 := by simpa [PLUTO_FIELD_PRIME] using hp
  have h := try_inverse_fermat_fin ⟨a.value, hlt⟩ h0
  exact h

/-- C4 witness: Fermat inversion at the concrete input `10`. -/
theorem try_inverse_fermat_witness :
    (PlutoField.new 10).try_inverse
      = some (PlutoField.new
          ((PlutoField.new 10).value ^ (PLUTO_FIELD_PRIME - 2) % PLUTO_FIELD_PRIME)) ∧
    (PlutoField.new 10).mul (PlutoField.new
        ((PlutoField.new 10).value ^ (PLUTO_FIELD_PRIME - 2) % PLUTO_FIELD_PRIME))
      = PlutoField.one ∧
    (PlutoField.new
        ((PlutoField.new 10).value ^ (PLUTO_FIELD_PRIME - 2) % PLUTO_FIELD_PRIME)).try_inverse
      = some (PlutoField.new 10) :=
  try_inverse_fermat (PlutoField.new 10) (by decide) (by decide)

/-! ### C5 -/

/-- C5: on canonical inputs, `add` computes `(a + b) % 101` — concretely the
raw sum with `101` subtracted exactly when the sum reaches `101` — and `sub`
computes `(a + 101 - b) % 101` — the raw difference, with `101` added exactly
when `a.value < b.value`; both results are canonical.  The concrete scenarios
`add(100, 20) = 19` and `sub(10, 20) = 91` hold. -/
theorem add_sub_formulas :
    (∀ a b : PlutoField, a.value < PLUTO_FIELD_PRIME → b.value < PLUTO_FIELD_PRIME →
      (a.add b).value = (a.value + b.value) % PLUTO_FIELD_PRIME ∧
      (a.add b).value = (if PLUTO_FIELD_PRIME ≤ a.value + b.value
        then a.value + b.value - PLUTO_FIELD_PRIME else a.value + b.value) ∧
      (a.sub b).value = (a.value + PLUTO_FIELD_PRIME - b.value) % PLUTO_FIELD_PRIME ∧
      (a.sub b).value = (if a.value < b.value
        then a.value + PLUTO_FIELD_PRIME - b.value else a.value - b.value) ∧
      (a.add b).value < PLUTO_FIELD_PRIME ∧ (a.sub b).value < PLUTO_FIELD_PRIME) ∧
    ((PlutoField.new 100).add (PlutoField.new 20)).value = 19 ∧
    ((PlutoField.new 10).sub (PlutoField.new 20)).value = 91 := by
  refine ⟨?_, by decide, by decide⟩
  intro a b h1 h2
  simp only [PlutoField.add, PlutoField.sub, PlutoField.new, PLUTO_FIELD_PRIME, U32_MOD] at *
  refine ⟨?_, ?_, ?_, ?_, ?_, ?_⟩ <;> split_ifs <;> omega

/-- C5 witness: the general formulas applied at the concrete inputs of the
first scenario. -/
theorem add_sub_formulas_witness :
    ((PlutoField.new 100).add (PlutoField.new 20)).value
      = ((PlutoField.new 100).value + (PlutoField.new 20).value) % PLUTO_FIELD_PRIME :=
  (add_sub_formulas.1 (PlutoField.new 100) (PlutoField.new 20) (by decide) (by decide)).1

/-! ### C6 -/

/-- C6: on canonical inputs, `mul` computes `a.value * b.value % 101`, which is
canonical; concretely `mul(10, 20) = 99`. -/
theorem mul_formula :
    (∀ a b : PlutoField, a.value < PLUTO_FIELD_PRIME → b.value < PLUTO_FIELD_PRIME →
      (a.mul b).value = a.value * b.value % PLUTO_FIELD_PRIME ∧
      (a.mul b).value < PLUTO_FIELD_PRIME) ∧
    ((PlutoField.new 10).mul (PlutoField.new 20)).value = 99 := by
  refine ⟨?_, by decide⟩
  intro a b h1 h2
  refine ⟨?_, mul_value_lt_prime a b⟩
  simp only [PLUTO_FIELD_PRIME] at *
  have hab : a.value * b.value ≤ 100 * 100 :=
    Nat.mul_le_mul (by omega) (by omega)
  have h32 : a.value * b.value < 2 ^ 32 := by omega
  simp only [PlutoField.mul, U32_MOD]
  rw [Nat.mod_eq_of_lt h32]

/-- C6 witness: the product formula applied at the concrete inputs `10`, `20`. -/
theorem mul_formula_witness :
    ((PlutoField.new 10).mul (PlutoField.new 20)).value
      = (PlutoField.new 10).value * (PlutoField.new 20).value % PLUTO_FIELD_PRIME :=
  (mul_formula.1 (PlutoField.new 10) (PlutoField.new 20) (by decide) (by decide)).1

/-! ### C7 -/

/-- C7: `is_zero` is true exactly when the raw value is `0` or `101`; the
doubly un-reduced value `202` (`2p`) is not recognized as zero. -/
theorem is_zero_dual_test :
    (∀ a : PlutoField, a.is_zero = true ↔ a.value = 0 ∨ a.value = PLUTO_FIELD_PRIME) ∧
    PlutoField.is_zero (PlutoField.new 202) = false := by
  refine ⟨?_, by decide⟩
  intro a
  simp [PlutoField.is_zero, PlutoField.ORDER_U32]

/-! ### C8 -/

/-- C8 counterexample: `from_canonical_u8` at the out-of-range argument `200`
performs no debug assertion — it succeeds and stores `200` verbatim — refuting
the claim that every trusted-canonical constructor debug-asserts `raw < 101`. -/
theorem from_canonical_u8_no_assert :
    PlutoField.from_canonical_u8 200 ≠ none ∧
    PlutoField.from_canonical_u8 200 = some (PlutoField.new 200) := by decide

/-- C8 (amended): only `from_canonical_u64` and `from_canonical_usize`
debug-assert `raw < 101` (failing, i.e. `none`, on out-of-range input in debug
builds); `from_canonical_u8`, `from_canonical_u16` and `from_canonical_u32`
store the widened raw value directly with no assertion at all. -/
theorem from_canonical_assert_behavior :
    (∀ n : Nat, PlutoField.from_canonical_u8 n = some (PlutoField.new n)) ∧
    (∀ n : Nat, PlutoField.from_canonical_u16 n = some (PlutoField.new n)) ∧
    (∀ n : Nat, PlutoField.from_canonical_u32 n = some (PlutoField.new n)) ∧
    (∀ n : Nat, n < PLUTO_FIELD_PRIME →
      PlutoField.from_canonical_u64 n = some (PlutoField.new n)) ∧
    (∀ n : Nat, PLUTO_FIELD_PRIME ≤ n → PlutoField.from_canonical_u64 n = none) ∧
    (∀ n : Nat, n < PLUTO_FIELD_PRIME →
      PlutoField.from_canonical_usize n = some (PlutoField.new n)) ∧
    (∀ n : Nat, PLUTO_FIELD_PRIME ≤ n → PlutoField.from_canonical_usize n = none) := by
  refine ⟨fun n => rfl, fun n => rfl, fun n => rfl, ?_, ?_, ?_, ?_⟩ <;>
    intro n h <;>
    simp [PlutoField.from_canonical_u64, PlutoField.from_canonical_usize,
      PlutoField.from_canonical_u32, h]

/-- C8 witness: the debug assertion of `from_canonical_u64` fires at `200` and
passes at `50`. -/
theorem from_canonical_assert_behavior_witness :
    PlutoField.from_canonical_u64 200 = none ∧
    PlutoField.from_canonical_u64 50 = some (PlutoField.new 50) :=
  ⟨from_canonical_assert_behavior.2.2.2.2.1 200 (by decide),
   from_canonical_assert_behavior.2.2.2.1 50 (by decide)⟩

/-! ### C9 -/

/-- C9 counterexample: `new(101)` and `new(0)` have equal canonical
representatives (`101 % 101 = 0 % 101`) yet are *not* equal under the derived
structural equality, refuting the claim that equality holds iff the canonical
representatives agree (and in particular that `new(101) = new(0)`). -/
theorem new_prime_ne_new_zero :
    (PlutoField.new 101).value % PLUTO_FIELD_PRIME
      = (PlutoField.new 0).value % PLUTO_FIELD_PRIME ∧
    PlutoField.new 101 ≠ PlutoField.new 0 := by decide

/-- C9 (amended): equality on field elements is structural — two elements are
equal iff their raw `value` fields are identical; consequently `new(101)` and
`new(0)`, though both recognized as zero by `is_zero` (equal canonical
representatives), are distinct elements. -/
theorem eq_iff_value_eq :
    (∀ a b : PlutoField, a = b ↔ a.value = b.value) ∧
    PlutoField.new 101 ≠ PlutoField.new 0 ∧
    (PlutoField.new 101).is_zero = true ∧
    (PlutoField.new 0).is_zero = true := by
  refine ⟨?_, by decide, by decide, by decide⟩
  intro a b
  constructor
  · intro h
    rw [h]
  · intro h
    cases a
    cases b
    simp_all

/-! ### C10 -/

/-- Exhaustive check over the canonical residues: the overflow-checked
inversion loop never hits an overflowing product and agrees with the
unchecked loop. -/
theorem invLoopChecked_fin :
    ∀ v : Fin 101, invLoopChecked 99 99 1 v.val = some (invLoop 99 99 1 v.val) := by
  decide

/-- C10: with canonical operands the `u32` product in `mul` stays below `2^32`,
and every intermediate product of the `try_inverse` loop stays below `2^32`
(the checked loop returns `some`, agreeing with the unchecked loop); the
guarantee fails for elements built via `new` from `2^16` upward — there the
`mul` product reaches `2^32` and the inversion loop's first squaring
overflows. -/
theorem no_u32_overflow_on_canonical :
    (∀ a b : PlutoField, a.value < PLUTO_FIELD_PRIME → b.value < PLUTO_FIELD_PRIME →
      a.value * b.value < U32_MOD) ∧
    (∀ a : PlutoField, a.value < PLUTO_FIELD_PRIME →
      invLoopChecked (PLUTO_FIELD_PRIME - 2) (PLUTO_FIELD_PRIME - 2) 1 a.value
        = some (invLoop (PLUTO_FIELD_PRIME - 2) (PLUTO_FIELD_PRIME - 2) 1 a.value)) ∧
    ¬ ((PlutoField.new 65536).value * (PlutoField.new 65536).value < U32_MOD) ∧
    invLoopChecked (PLUTO_FIELD_PRIME - 2) (PLUTO_FIELD_PRIME - 2) 1
      (PlutoField.new 65536).value = none := by
  refine ⟨?_, ?_, by decide, by decide⟩
  · intro a b h1 h2
    simp only [PLUTO_FIELD_PRIME] at h1 h2
    have hab : a.value * b.value ≤ 100 * 100 :=
      Nat.mul_le_mul (by omega) (by omega)
    simp only [U32_MOD]
    omega
  · intro a h
    have hlt : a.value < 101 := by simpa [PLUTO_FIELD_PRIME] using h
    exact invLoopChecked_fin ⟨a.value, hlt⟩

/-- C10 witness: no overflow at the concrete canonical inputs `100 * 100` and
in the inversion loop started at `7`. -/
theorem no_u32_overflow_on_canonical_witness :
    (PlutoField.new 100).value * (PlutoField.new 100).value < U32_MOD ∧
    invLoopChecked (PLUTO_FIELD_PRIME - 2) (PLUTO_FIELD_PRIME - 2) 1
        (PlutoField.new 7).value
      = some (invLoop (PLUTO_FIELD_PRIME - 2) (PLUTO_FIELD_PRIME - 2) 1
        (PlutoField.new 7).value) :=
  ⟨no_u32_overflow_on_canonical.1 (PlutoField.new 100) (PlutoField.new 100)
      (by decide) (by decide),
   no_u32_overflow_on_canonical.2.1 (PlutoField.new 7) (by decide)⟩
